import Mathlib

/-!
# Verification of the snake game core (src/main.rs)

Shallow embedding of the game's data model and update logic:

* `Food`, `Direction`, `SnakePiece`, `Snake`, `Game` mirror the Rust
  structs/enums of the same names.
* Rust's `i32` values are modelled as `Int`; grid sizes stay far below
  `2^31`, so wrap-around never matters for the properties proved here.
* Rust `i32` division truncates toward zero, which is `Int.tdiv`.
* The `LinkedList<SnakePiece>` body is a `List SnakePiece` with the front
  at the head of the list: `push_front` is `cons`, `pop_back` is `dropLast`.
* Methods that can `panic!`/`unwrap` on an empty body return `Option`
  (`none` models the abort).
* The random number generator behind `Food::update` is modelled as an
  oracle: a list of successively sampled `(y, x)` pairs.  `gen_range(0..n)`
  guarantees each sample lies in `[0, n)`, which becomes a hypothesis on
  the oracle.  An exhausted oracle (`none`) models a run of the sampling
  loop that has not yet terminated.
-/

namespace SnakeGame

/-- Rust `i32` division truncates toward zero, i.e. `Int.tdiv`. -/
def rustDiv (a b : Int) : Int := Int.tdiv a b

/-- `struct Food { y, x, ch }`. -/
structure Food where
  y : Int
  x : Int
  ch : Char
deriving DecidableEq

/-- `enum Direction { Down, Right, Up, Left }`. -/
inductive Direction where
  | Down
  | Right
  | Up
  | Left
deriving DecidableEq

/-- `struct SnakePiece(i32, i32)`; field `.0` is `y`, field `.1` is `x`. -/
structure SnakePiece where
  y : Int
  x : Int
deriving DecidableEq

/-- `SnakePiece::is_collide_edge`: the head is blocked when it is already at
the boundary row/column in the direction of travel. -/
def SnakePiece.is_collide_edge (p : SnakePiece) (dir : Direction) (rows cols : Int) : Bool :=
  match dir with
  | .Down => decide (p.y ≥ rows - 1)
  | .Right => decide (p.x ≥ cols - 1)
  | .Up => decide (p.y ≤ 0)
  | .Left => decide (p.x ≤ 0)

/-- `SnakePiece::update`: translate one cell along `dir`. -/
def SnakePiece.update (p : SnakePiece) (dir : Direction) : SnakePiece :=
  match dir with
  | .Down => { p with y := p.y + 1 }
  | .Right => { p with x := p.x + 1 }
  | .Up => { p with y := p.y - 1 }
  | .Left => { p with x := p.x - 1 }

/-- `struct Snake { parts, dir, just_eaten, score, speed }`. -/
structure Snake where
  parts : List SnakePiece
  dir : Direction
  just_eaten : Bool
  score : Int
  speed : Int
deriving DecidableEq

/-- `Snake::set_direction`: apply `new_dir` unless it is the reverse of the
current direction; otherwise keep the current direction. -/
def Snake.set_direction (s : Snake) (new_dir : Direction) : Snake :=
  let last_dir := s.dir
  { s with
    dir :=
      match new_dir with
      | .Left => if last_dir ≠ .Right then .Left else last_dir
      | .Down => if last_dir ≠ .Up then .Down else last_dir
      | .Up => if last_dir ≠ .Down then .Up else last_dir
      | .Right => if last_dir ≠ .Left then .Right else last_dir }

/-- `Snake::is_collide`: true iff `(y, x)` equals some body segment. -/
def Snake.is_collide (s : Snake) (y x : Int) : Bool :=
  s.parts.any fun p => y == p.y && x == p.x

/-- `Snake::update`: clone the front piece, fail on edge collision, translate,
fail on self collision, push the new head, then either consume the
`just_eaten` flag (score/speed update, no pop) or pop the tail.
`none` models the `expect "Snake has no body"` panic on an empty body. -/
def Snake.update (s : Snake) (rows cols : Int) : Option (Bool × Snake) :=
  match s.parts with
  | [] => none
  | front :: _ =>
    if front.is_collide_edge s.dir rows cols then some (false, s)
    else
      let new_head := front.update s.dir
      if s.is_collide new_head.y new_head.x then some (false, s)
      else
        let pushed := { s with parts := new_head :: s.parts }
        if s.just_eaten then
          some (true, { pushed with
            score := s.score + 1
            speed := s.speed - rustDiv s.speed 10
            just_eaten := false })
        else
          some (true, { pushed with parts := pushed.parts.dropLast })

/-- `Food::is_collide`: true iff `(y, x)` is the food's position. -/
def Food.is_collide (f : Food) (y x : Int) : Bool :=
  f.y == y && f.x == x

/-- `Food::update`: eaten iff the snake's head is on the food; if eaten,
keep sampling random in-bounds cells until one misses the snake, and move
the food there.  `samples` is the rng oracle (each `gen_range(0..rows)` /
`gen_range(0..cols)` pair); `none` models either the `unwrap` panic on an
empty body or a sampling loop that has not terminated within the oracle. -/
def Food.update (f : Food) (rows cols : Int) (snake : Snake) (samples : List (Int × Int)) :
    Option (Bool × Food) :=
  match snake.parts with
  | [] => none
  | snake_head :: _ =>
    let eaten := f.is_collide snake_head.y snake_head.x
    if eaten then
      match samples.find? (fun q => ! snake.is_collide q.1 q.2) with
      | some q => some (true, { f with y := q.1, x := q.2 })
      | none => none
    else
      some (false, f)

/-- `struct Game { rows, cols, snake, food }`. -/
structure Game where
  rows : Int
  cols : Int
  snake : Snake
  food : Food
deriving DecidableEq

/-- `Game::update`: run `Snake::update`; on failure return `false` without
touching the food; on success store `Food::update`'s result in the snake's
`just_eaten` flag and return `true`. -/
def Game.update (g : Game) (samples : List (Int × Int)) : Option (Bool × Game) :=
  match g.snake.update g.rows g.cols with
  | none => none
  | some (false, s1) => some (false, { g with snake := s1 })
  | some (true, s1) =>
    match g.food.update g.rows g.cols s1 samples with
    | none => none
    | some (eaten, f1) =>
      some (true, { g with snake := { s1 with just_eaten := eaten }, food := f1 })

/-- The initial `Game` built in `main` from the window size: a two-piece
snake at the grid centre heading `Right`, score `0`, speed `500`, and food
at `(get_max_y()/2 + 5, get_max_y()/2 + 5)` — note that the source uses
`get_max_y()` (the row count) for **both** food coordinates. -/
def mainInit (rows cols : Int) : Game :=
  { rows := rows
    cols := cols
    snake :=
      { parts := [⟨rustDiv rows 2, rustDiv cols 2⟩, ⟨rustDiv rows 2, rustDiv cols 2 - 1⟩]
        dir := .Right
        just_eaten := false
        score := 0
        speed := 500 }
    food := { y := rustDiv rows 2 + 5, x := rustDiv rows 2 + 5, ch := '.' } }

/-- The exact opposite of a direction (`Left↔Right`, `Up↔Down`), as used by
the specification to describe forbidden reversals. -/
def Direction.opposite : Direction → Direction
  | .Left => .Right
  | .Right => .Left
  | .Up => .Down
  | .Down => .Up

/-- The head sits on the boundary row/column in its direction of travel:
row `0` heading `Up`, row `rows - 1` heading `Down`, column `0` heading
`Left`, column `cols - 1` heading `Right` (the specification's wording). -/
def atBoundaryTowards (p : SnakePiece) (dir : Direction) (rows cols : Int) : Prop :=
  match dir with
  | .Up => p.y = 0
  | .Down => p.y = rows - 1
  | .Left => p.x = 0
  | .Right => p.x = cols - 1

/-- A failed `Snake.update` returns the snake unchanged: both `return false`
statements in the source fire before any field is mutated. -/
theorem update_false_frozen (s : Snake) (rows cols : Int) (s' : Snake)
    (h : s.update rows cols = some (false, s')) : s' = s := by
  obtain ⟨parts, dir, je, sc, sp⟩ := s
  cases parts with
  | nil => simp [Snake.update] at h
  | cons front t =>
    simp only [Snake.update] at h
    split_ifs at h <;> simp_all

/-- For every integer `z ≥ 1`, one speed-decrement step `z - z / 10`
(truncating division) stays at least `1`. -/
theorem one_le_sub_rustDiv_ten (z : Int) (h : 1 ≤ z) : 1 ≤ z - rustDiv z 10 := by
  unfold rustDiv
  rw [Int.tdiv_eq_ediv (by omega) (by omega)]
  omega

/-- Claim C3: `set_direction d` changes the heading to `d` iff `d` is not
the exact opposite of the current heading; otherwise the heading (and all
other state) is unchanged, with no error signaled. -/
theorem set_direction_reversal_guard (s : Snake) (d : Direction) :
    ((s.set_direction d).dir = d ↔ d ≠ s.dir.opposite) ∧
    (d = s.dir.opposite → (s.set_direction d).dir = s.dir) ∧
    (s.set_direction d).parts = s.parts ∧
    (s.set_direction d).just_eaten = s.just_eaten ∧
    (s.set_direction d).score = s.score ∧
    (s.set_direction d).speed = s.speed := by
  obtain ⟨parts, dir, je, sc, sp⟩ := s
  cases d <;> cases dir <;>
    simp [Snake.set_direction, Direction.opposite]

/-- Claim C1: with the head already at the boundary row/column in the
direction of travel (row `0` heading `Up`, row `rows-1` heading `Down`,
column `0` heading `Left`, column `cols-1` heading `Right`), `Snake.update`
returns `false` and leaves the whole snake — in particular the body segment
sequence — unchanged: the edge check runs before the head is translated. -/
theorem update_edge_gameover (s : Snake) (rows cols : Int) (front : SnakePiece)
    (t : List SnakePiece) (hp : s.parts = front :: t)
    (hb : atBoundaryTowards front s.dir rows cols) :
    s.update rows cols = some (false, s) := by
  obtain ⟨parts, dir, je, sc, sp⟩ := s
  subst hp
  have hedge : front.is_collide_edge dir rows cols = true := by
    cases dir <;> simp_all [SnakePiece.is_collide_edge, atBoundaryTowards]
  simp [Snake.update, hedge]

def c1Snake : Snake :=
  { parts := [⟨0, 5⟩, ⟨1, 5⟩], dir := .Up, just_eaten := false, score := 0, speed := 500 }

theorem update_edge_gameover_witness :
    c1Snake.update 10 10 = some (false, c1Snake) :=
  update_edge_gameover c1Snake 10 10 ⟨0, 5⟩ [⟨1, 5⟩] rfl rfl

/-- Claim C4: whenever translating the current head one cell along the
current direction lands on an existing body segment, `Snake.update` returns
`false` (game over) — via the self-collision check, or via the edge check
when that fires first. -/
theorem update_self_collision_gameover (s : Snake) (rows cols : Int) (front : SnakePiece)
    (t : List SnakePiece) (hp : s.parts = front :: t)
    (hc : front.update s.dir ∈ s.parts) :
    s.update rows cols = some (false, s) := by
  obtain ⟨parts, dir, je, sc, sp⟩ := s
  subst hp
  have hcol : Snake.is_collide ⟨front :: t, dir, je, sc, sp⟩
      (front.update dir).y (front.update dir).x = true := by
    simp only [Snake.is_collide, List.any_eq_true]
    exact ⟨front.update dir, hc, by simp⟩
  by_cases hedge : front.is_collide_edge dir rows cols = true
  · simp [Snake.update, hedge]
  · simp [Snake.update, hedge, hcol]

def c4Snake : Snake :=
  { parts := [⟨5, 5⟩, ⟨5, 6⟩, ⟨4, 6⟩, ⟨4, 5⟩], dir := .Right, just_eaten := false,
    score := 0, speed := 500 }

theorem update_self_collision_gameover_witness :
    c4Snake.update 10 10 = some (false, c4Snake) :=
  update_self_collision_gameover c4Snake 10 10 ⟨5, 5⟩ [⟨5, 6⟩, ⟨4, 6⟩, ⟨4, 5⟩] rfl (by decide)

/-- Claim C2: if the `just_eaten` flag is `true` on entry and `Snake.update`
succeeds, the segment count grows by exactly `1`, the score by exactly `1`,
the speed drops by `speed / 10` (truncating division, which is
`floor(speed / 10)` for the nonnegative speeds that occur), and the flag is
cleared. -/
theorem update_growth (s : Snake) (rows cols : Int) (s' : Snake)
    (he : s.just_eaten = true) (h : s.update rows cols = some (true, s')) :
    s'.parts.length = s.parts.length + 1 ∧
    s'.score = s.score + 1 ∧
    s'.speed = s.speed - rustDiv s.speed 10 ∧
    (0 ≤ s.speed → s'.speed = s.speed - Int.fdiv s.speed 10) ∧
    s'.just_eaten = false := by
  obtain ⟨parts, dir, je, sc, sp⟩ := s
  cases parts with
  | nil => simp [Snake.update] at h
  | cons front t =>
    simp only [Snake.update] at h
    split_ifs at h with h1 h2
    · simp at h
    · simp at h
    · simp only [Option.some.injEq, Prod.mk.injEq] at h
      obtain ⟨-, rfl⟩ := h
      refine ⟨by simp, rfl, rfl, ?_, rfl⟩
      intro h0
      have : rustDiv sp 10 = Int.fdiv sp 10 := by
        unfold rustDiv
        rw [Int.tdiv_eq_ediv h0 (by omega), Int.fdiv_eq_ediv _ (by omega)]
      simp [this]

def c2Snake : Snake :=
  { parts := [⟨5, 5⟩], dir := .Right, just_eaten := true, score := 0, speed := 500 }

def c2After : Snake :=
  { parts := [⟨5, 6⟩, ⟨5, 5⟩], dir := .Right, just_eaten := false, score := 1, speed := 450 }

theorem update_growth_witness :
    c2After.parts.length = c2Snake.parts.length + 1 ∧
    c2After.score = c2Snake.score + 1 ∧
    c2After.speed = c2Snake.speed - rustDiv c2Snake.speed 10 ∧
    (0 ≤ c2Snake.speed → c2After.speed = c2Snake.speed - Int.fdiv c2Snake.speed 10) ∧
    c2After.just_eaten = false :=
  update_growth c2Snake 10 10 c2After rfl (by decide)

/-- Claim C7: if the `just_eaten` flag is `false` on entry and `Snake.update`
succeeds, the segment count is unchanged: the translated head is prepended
and the tail segment is removed. -/
theorem update_no_growth (s : Snake) (rows cols : Int) (s' : Snake)
    (he : s.just_eaten = false) (h : s.update rows cols = some (true, s')) :
    s'.parts.length = s.parts.length ∧
    ∃ front t, s.parts = front :: t ∧
      s'.parts = (front.update s.dir :: s.parts).dropLast := by
  obtain ⟨parts, dir, je, sc, sp⟩ := s
  cases parts with
  | nil => simp [Snake.update] at h
  | cons front t =>
    simp only [Snake.update] at h
    split_ifs at h with h1 h2 h3
    · simp at h
    · simp at h
    · simp_all
    · simp only [Option.some.injEq, Prod.mk.injEq] at h
      obtain ⟨-, rfl⟩ := h
      exact ⟨by simp, front, t, rfl, rfl⟩

def c7Snake : Snake :=
  { parts := [⟨5, 5⟩, ⟨5, 4⟩], dir := .Right, just_eaten := false, score := 0, speed := 500 }

def c7After : Snake :=
  { parts := [⟨5, 6⟩, ⟨5, 5⟩], dir := .Right, just_eaten := false, score := 0, speed := 500 }

theorem update_no_growth_witness :
    c7After.parts.length = c7Snake.parts.length ∧
    ∃ front t, c7Snake.parts = front :: t ∧
      c7After.parts = (front.update c7Snake.dir :: c7Snake.parts).dropLast :=
  update_no_growth c7Snake 10 10 c7After rfl (by decide)

/-- Claim C9: whenever `Snake.update` returns `false` — by edge collision or
by self collision — the entire snake state is unchanged: segments, direction,
score, speed and the `just_eaten` flag all keep their pre-call values. -/
theorem update_failure_atomic (s : Snake) (rows cols : Int) (s' : Snake)
    (h : s.update rows cols = some (false, s')) :
    s'.parts = s.parts ∧ s'.dir = s.dir ∧ s'.just_eaten = s.just_eaten ∧
    s'.score = s.score ∧ s'.speed = s.speed := by
  have hs := update_false_frozen s rows cols s' h
  subst hs
  exact ⟨rfl, rfl, rfl, rfl, rfl⟩

def c9Snake : Snake :=
  { parts := [⟨3, 3⟩, ⟨3, 4⟩, ⟨2, 4⟩, ⟨2, 3⟩], dir := .Right, just_eaten := true,
    score := 7, speed := 300 }

theorem update_failure_atomic_witness :
    c9Snake.parts = c9Snake.parts ∧ c9Snake.dir = c9Snake.dir ∧
    c9Snake.just_eaten = c9Snake.just_eaten ∧ c9Snake.score = c9Snake.score ∧
    c9Snake.speed = c9Snake.speed :=
  update_failure_atomic c9Snake 10 10 c9Snake (by decide)

/-- Claim C10: `Snake.update` preserves `speed ≥ 1` (the only modification is
`speed -= speed / 10` with truncating division, and `z - z / 10 ≥ 1` for
every `z ≥ 1`); the initial speed built in `main` is `500 ≥ 1`, so the input
timeout stays strictly positive over any run. -/
theorem update_speed_positive (s : Snake) (rows cols : Int) (b : Bool) (s' : Snake)
    (hsp : 1 ≤ s.speed) (h : s.update rows cols = some (b, s')) :
    1 ≤ s'.speed ∧ 1 ≤ (mainInit rows cols).snake.speed := by
  constructor
  · obtain ⟨parts, dir, je, sc, sp⟩ := s
    cases parts with
    | nil => simp [Snake.update] at h
    | cons front t =>
      simp only [Snake.update] at h
      split_ifs at h with h1 h2 h3
      · simp only [Option.some.injEq, Prod.mk.injEq] at h
        obtain ⟨-, rfl⟩ := h
        exact hsp
      · simp only [Option.some.injEq, Prod.mk.injEq] at h
        obtain ⟨-, rfl⟩ := h
        exact hsp
      · simp only [Option.some.injEq, Prod.mk.injEq] at h
        obtain ⟨-, rfl⟩ := h
        exact one_le_sub_rustDiv_ten sp hsp
      · simp only [Option.some.injEq, Prod.mk.injEq] at h
        obtain ⟨-, rfl⟩ := h
        exact hsp
  · simp [mainInit]

theorem update_speed_positive_witness :
    1 ≤ c2After.speed ∧ 1 ≤ (mainInit 10 10).snake.speed :=
  update_speed_positive c2Snake 10 10 true c2After (by decide) (by decide)

/-- Claim C5: `Food.update` reports `eaten = true` iff the snake's current
head sits on the food; and whenever it reports `true` and the sampling loop
terminates, the food's new position is inside `[0, rows) × [0, cols)` (every
`gen_range` sample is) and is not occupied by any snake segment. -/
theorem food_update_spec (f : Food) (rows cols : Int) (s : Snake)
    (samples : List (Int × Int)) (front : SnakePiece) (t : List SnakePiece)
    (hp : s.parts = front :: t)
    (hs : ∀ q ∈ samples, 0 ≤ q.1 ∧ q.1 < rows ∧ 0 ≤ q.2 ∧ q.2 < cols)
    (eaten : Bool) (f' : Food)
    (h : f.update rows cols s samples = some (eaten, f')) :
    (eaten = true ↔ front.y = f.y ∧ front.x = f.x) ∧
    (eaten = true →
      0 ≤ f'.y ∧ f'.y < rows ∧ 0 ≤ f'.x ∧ f'.x < cols ∧
      s.is_collide f'.y f'.x = false) := by
  obtain ⟨parts, dir, je, sc, sp⟩ := s
  subst hp
  simp only [Food.update] at h
  cases hE : f.is_collide front.y front.x with
  | false =>
    rw [hE] at h
    simp only [Bool.false_eq_true, if_false] at h
    simp only [Option.some.injEq, Prod.mk.injEq] at h
    obtain ⟨rfl, rfl⟩ := h
    simp only [Food.is_collide, Bool.and_eq_true, beq_iff_eq] at hE
    refine ⟨⟨fun hx => absurd hx (by simp), ?_⟩, fun hx => absurd hx (by simp)⟩
    rintro ⟨hy, hx⟩
    simp [hy.symm, hx.symm] at hE
  | true =>
    rw [hE] at h
    simp only [if_true] at h
    rcases hF : List.find?
        (fun q => ! Snake.is_collide ⟨front :: t, dir, je, sc, sp⟩ q.1 q.2) samples
      with _ | q
    · rw [hF] at h
      simp at h
    · rw [hF] at h
      simp only [Option.some.injEq, Prod.mk.injEq] at h
      obtain ⟨rfl, rfl⟩ := h
      have hq := List.mem_of_find?_eq_some hF
      have hqp := List.find?_some hF
      simp only [Bool.not_eq_eq_eq_not, Bool.not_true] at hqp
      obtain ⟨hy1, hy2, hx1, hx2⟩ := hs q hq
      simp only [Food.is_collide, Bool.and_eq_true, beq_iff_eq] at hE
      exact ⟨⟨fun _ => ⟨hE.1.symm, hE.2.symm⟩, fun _ => rfl⟩,
        fun _ => ⟨hy1, hy2, hx1, hx2, hqp⟩⟩

def c5Snake : Snake :=
  { parts := [⟨5, 5⟩], dir := .Right, just_eaten := false, score := 0, speed := 500 }

def c5Food : Food := { y := 5, x := 5, ch := '.' }

def c5FoodAfter : Food := { y := 2, x := 3, ch := '.' }

theorem food_update_spec_witness :
    (true = true ↔ (⟨5, 5⟩ : SnakePiece).y = c5Food.y ∧ (⟨5, 5⟩ : SnakePiece).x = c5Food.x) ∧
    (true = true →
      0 ≤ c5FoodAfter.y ∧ c5FoodAfter.y < 10 ∧ 0 ≤ c5FoodAfter.x ∧ c5FoodAfter.x < 10 ∧
      c5Snake.is_collide c5FoodAfter.y c5FoodAfter.x = false) :=
  food_update_spec c5Food 10 10 c5Snake [(2, 3)] ⟨5, 5⟩ [] rfl (by decide) true
    c5FoodAfter (by decide)

/-- Claim C6: `Game.update` returns `false` exactly when `Snake.update`
fails; in that case the whole game state — food included — is unchanged and
`Food.update` is never consulted.  When `Snake.update` succeeds,
`Game.update` returns `true` and stores the result of `Food.update` (run on
the updated snake) in the snake's `just_eaten` flag, to be consumed by the
next tick's `Snake.update`. -/
theorem game_update_spec (g : Game) (samples : List (Int × Int)) (b : Bool) (g' : Game)
    (h : g.update samples = some (b, g')) :
    (b = false ↔ g.snake.update g.rows g.cols = some (false, g.snake)) ∧
    (b = false → g' = g) ∧
    (b = true → ∃ s1 f1,
      g.snake.update g.rows g.cols = some (true, s1) ∧
      g.food.update g.rows g.cols s1 samples = some (g'.snake.just_eaten, f1) ∧
      g' = { g with snake := { s1 with just_eaten := g'.snake.just_eaten }, food := f1 }) := by
  unfold Game.update at h
  rcases hu : g.snake.update g.rows g.cols with _ | ⟨b1, s1⟩
  · rw [hu] at h
    simp at h
  · rw [hu] at h
    cases b1 with
    | false =>
      have hfr := update_false_frozen g.snake g.rows g.cols s1 hu
      subst hfr
      simp only [Option.some.injEq, Prod.mk.injEq] at h
      obtain ⟨rfl, rfl⟩ := h
      refine ⟨⟨fun _ => rfl, fun _ => rfl⟩, fun _ => rfl, fun hx => absurd hx (by simp)⟩
    | true =>
      simp only [Option.some.injEq, Prod.mk.injEq] at h
      rcases hf : g.food.update g.rows g.cols s1 samples with _ | ⟨eaten, f1⟩
      · rw [hf] at h
        simp at h
      · rw [hf] at h
        simp only [Option.some.injEq, Prod.mk.injEq] at h
        obtain ⟨rfl, rfl⟩ := h
        refine ⟨⟨fun hx => absurd hx (by simp), fun hR => ?_⟩,
          fun hx => absurd hx (by simp), fun _ => ⟨s1, f1, rfl, hf, rfl⟩⟩
        simp at hR

def c6Game : Game :=
  { rows := 3
    cols := 3
    snake := { parts := [⟨1, 2⟩], dir := .Right, just_eaten := false, score := 0, speed := 500 }
    food := { y := 0, x := 0, ch := '.' } }

theorem game_update_spec_witness :
    c6Game.snake.update c6Game.rows c6Game.cols = some (false, c6Game.snake) :=
  (game_update_spec c6Game [] false c6Game (by decide)).1.mp rfl

/-- Claim C8: in the initial state built by `main` the snake is correct as
claimed (length 2, centred, heading `Right`, score `0`, speed `500`) and the
food's row is `rows/2 + 5`; but the food's **column** is also computed from
`get_max_y()` — it equals `rows/2 + 5`, not a constant offset from `cols/2`.
At `rows = 10`: the column is `10` whether `cols` is `30` or `50`, so no
constant column offset from `cols/2` exists; and at `rows = 60, cols = 20`
the initial food column `35` lies outside the grid. -/
theorem mainInit_food_position :
    ((mainInit 10 30).food.y = 10 ∧ (mainInit 10 30).food.x = 10 ∧
     (mainInit 10 30).snake.parts = [⟨5, 15⟩, ⟨5, 14⟩] ∧
     (mainInit 10 30).snake.dir = Direction.Right ∧
     (mainInit 10 30).snake.just_eaten = false ∧
     (mainInit 10 30).snake.score = 0 ∧
     (mainInit 10 30).snake.speed = 500) ∧
    (¬ ∃ k : Int, ∀ rows cols : Int, (mainInit rows cols).food.x = rustDiv cols 2 + k) ∧
    ((mainInit 60 20).food.x = 35 ∧ ¬ (mainInit 60 20).food.x < 20) := by
  refine ⟨by decide, ?_, by decide⟩
  rintro ⟨k, hk⟩
  have h1 := hk 10 30
  have h2 := hk 10 50
  simp only [mainInit] at h1 h2
  have e0 : rustDiv 10 2 = 5 := by decide
  have e1 : rustDiv 30 2 = 15 := by decide
  have e2 : rustDiv 50 2 = 25 := by decide
  rw [e0, e1] at h1
  rw [e0, e2] at h2
  omega

end SnakeGame
